import Mathlib

/-!
Verification of the data-preparation and evaluation pipeline of the
granite-timeseries-workshop notebook `notebooks/M5_retail_sales_forecasting.ipynb`.

The two pieces of self-contained logic in the notebook are embedded here:

* the evaluation function `custom_metric` (notebook cell "Evaluate the Model"),
  which reconciles the column counts of an (actual, predicted) pair of numeric
  matrices, masks rows whose actual values contain NaN, and computes
  mean-squared / root-mean-squared / mean-absolute errors with numpy;
* the few-shot index selection
  `np.random.permutation(n)[: int(fewshot_fraction * n)]`
  (notebook cell "take a smaller sample"), which draws a prefix of the
  permutation produced by the ambient global numpy generator.

Numeric cells are modelled as `Option ℚ`, with `none` playing the role of the
IEEE NaN produced and propagated by numpy: every arithmetic operation maps a
NaN operand to NaN, `np.isnan` detects it, and `np.mean` of an empty or
NaN-containing array is NaN.  Square roots of rationals are irrational in
general, so of the `root_mean_squared_error = np.sqrt(mse)` entry only its
NaN-ness is modelled (`npSqrtNaN`), which is all the claims need.

The chronological splitting function `prepare_data_splits` that the notebook
calls lives in the external `tsfm_public` library, so it is modelled from the
specification's description of `splitByEntity` (per-entity floor-rounded
fractional boundaries, `InsufficientHistoryError` on partitions shorter than
the context length).
-/

/-- A numeric cell of a numpy array: `none` models IEEE NaN. -/
abbrev Val := Option ℚ

/-- A 2-D numpy array as a list of rows. -/
abbrev Mat := List (List Val)

/-- `shape[1]` of a rectangular 2-D array: the length of its first row. -/
def ncols (m : Mat) : Nat := (m.headD []).length

/-- The matrix is rectangular: every row has the common column count.
numpy's `asarray` only yields a 2-D numeric array for such inputs. -/
def IsRect (m : Mat) : Prop := ∀ r ∈ m, r.length = ncols m

instance (m : Mat) : Decidable (IsRect m) :=
  inferInstanceAs (Decidable (∀ r ∈ m, r.length = ncols m))

/-- Subtraction of cells; a NaN operand makes the result NaN, as in numpy. -/
def subVal : Val → Val → Val
  | some x, some y => some (x - y)
  | _, _ => none

/-- `np.square` on a cell; NaN squares to NaN. -/
def sqVal : Val → Val
  | some x => some (x * x)
  | none => none

/-- `np.abs` on a cell; NaN maps to NaN. -/
def absVal : Val → Val
  | some x => some |x|
  | none => none

/-- `np.isnan` on a cell. -/
def isNaNVal (v : Val) : Bool := v.isNone

/-- `np.any(np.isnan(row))`: the row contains a NaN. -/
def rowHasNaN (r : List Val) : Bool := r.any isNaNVal

/-- `mask = ~np.any(np.isnan(a), axis=1)`: one boolean per row of `a`,
true when the row of `a` is NaN-free.  Only the actual matrix is inspected. -/
def maskOf (a : Mat) : List Bool := a.map (fun r => !rowHasNaN r)

/-- Boolean-mask row selection `m[mask, :]`: keep the rows whose mask bit is
set, in order. -/
def applyMask (mask : List Bool) (m : Mat) : Mat :=
  ((mask.zip m).filter (fun q => q.1)).map Prod.snd

/-- `a[:, :k]`: truncate every row to its first `k` entries. -/
def truncRows (k : Nat) (m : Mat) : Mat := m.map (fun r => r.take k)

/-- The length-reconciliation step of `custom_metric`:
`if p.shape[1] < a.shape[1]: a = a[:, : p.shape[1]]`. -/
def reconcile (actual prediction : Mat) : Mat :=
  if ncols prediction < ncols actual then truncRows (ncols prediction) actual else actual

/-- numpy broadcast compatibility of two trailing dimensions: equal, or one
of them is 1. -/
def bcastCompat (x y : Nat) : Bool := x == y || x == 1 || y == 1

/-- Row-wise broadcasting subtraction of two rows of lengths `ca` and `cp`
with `ca = cp`, `ca = 1` or `cp = 1`: the length-1 row is stretched across
the other, as numpy broadcasting stretches a size-1 axis. -/
def rowSub (ra rp : List Val) : List Val :=
  if ra.length = rp.length then List.zipWith subVal ra rp
  else if ra.length = 1 then rp.map (fun y => subVal (ra.headD none) y)
  else ra.map (fun x => subVal x (rp.headD none))

/-- Broadcasting subtraction `a - p` of two matrices with equal row counts. -/
def matSub (a p : Mat) : Mat := List.zipWith rowSub a p

/-- `np.mean` over the flattened cells: NaN on an empty array (numpy emits a
warning and returns NaN), NaN when any cell is NaN, the arithmetic mean
otherwise. -/
def npMean (l : List Val) : Val :=
  if l.length = 0 then none
  else if l.any isNaNVal then none
  else some ((l.map (fun v => v.getD 0)).sum / (l.length : ℚ))

/-- The metric report built by `custom_metric`; its
`root_mean_squared_error` entry is `np.sqrt` of the first field and is
modelled separately by `npSqrtNaN` / `reportRmseNaN`. -/
structure MetricReport where
  mean_squared_error : Val
  mean_absolute_error : Val
deriving DecidableEq, Repr

/-- The numpy exceptions `custom_metric` can propagate: a broadcasting
`ValueError` from subtracting incompatible shapes, and an `IndexError`
from boolean-indexing `p` with a mask of the wrong length. -/
inductive NumpyError where
  | broadcastError
  | indexError
deriving DecidableEq, Repr

/-- Whether `np.sqrt` returns NaN on the given cell: NaN input or negative
input. -/
def npSqrtNaN : Val → Bool
  | none => true
  | some q => decide (q < 0)

/-- Whether the `root_mean_squared_error = np.sqrt(mse)` entry of a report is
NaN. -/
def reportRmseNaN (r : MetricReport) : Bool := npSqrtNaN r.mean_squared_error

/-- Embeds `custom_metric` of `notebooks/M5_retail_sales_forecasting.ipynb`:

```
a = np.asarray(actual.tolist()); p = np.asarray(prediction.tolist())
if p.shape[1] < a.shape[1]: a = a[:, : p.shape[1]]
mask = ~np.any(np.isnan(a), axis=1)
mse = np.mean(np.square(a[mask, :] - p[mask, :]))
mae = np.mean(np.abs(a[mask, :] - p[mask, :]))
```

The subtraction raises a broadcasting `ValueError` when the reconciled
column counts are incompatible, and the boolean indexing `p[mask, :]`
raises an `IndexError` when the mask length differs from `p`'s row count;
otherwise the report with the two means (NaN modelled as `none`) is built. -/
def custom_metric (actual prediction : Mat) : Except NumpyError MetricReport :=
  let a := reconcile actual prediction
  if actual.length ≠ prediction.length then Except.error NumpyError.indexError
  else if bcastCompat (ncols a) (ncols prediction) then
    let mask := maskOf a
    let diff := matSub (applyMask mask a) (applyMask mask prediction)
    let cells := diff.flatten
    Except.ok ⟨npMean (cells.map sqVal), npMean (cells.map absVal)⟩
  else Except.error NumpyError.broadcastError

/-- Python's `int()` conversion: truncation toward zero. -/
def pyInt (q : ℚ) : ℤ := if 0 ≤ q then q.floor else q.ceil

/-- Embeds the few-shot index selection of the notebook:

```
train_index = np.random.permutation(n_train_all)[: int(fewshot_fraction * n_train_all)]
```

There is no seed argument in the source: the permutation is produced by the
ambient global numpy generator, so that hidden global state is passed here
explicitly as `ambientPerm`, the permutation of `range datasetSize` the
global generator happened to return.  The selection is the prefix of that
permutation of length `int(fraction * datasetSize)`. -/
def fewshotSample (ambientPerm : List Nat) (fraction : ℚ) (datasetSize : Nat) : List Nat :=
  ambientPerm.take (pyInt (fraction * datasetSize)).toNat

/-- A row of the raw time-series table: an entity identifier and its
chronological position.  Rows of one entity appear in the table in
chronological order. -/
structure SRow where
  entityId : Nat
  time : Nat
deriving DecidableEq, Repr

/-- The split fractions `{train: …, test: …}` handed to the splitter. -/
structure SplitConfig where
  train : ℚ
  test : ℚ
deriving DecidableEq, Repr

/-- The error of the splitter: an entity whose partition is shorter than the
context length, reported by identifier. -/
inductive SplitError where
  | insufficientHistory (entityId : Nat)
deriving DecidableEq, Repr

/-- The chronological rows of one entity, in table order. -/
def entityRows (table : List SRow) (e : Nat) : List SRow :=
  table.filter (fun r => r.entityId == e)

/-- The distinct entity identifiers occurring in the table. -/
def entityIds (table : List SRow) : List Nat :=
  (table.map (fun r => r.entityId)).dedup

/-- Modelled from the spec: the per-entity boundary computation of
`splitByEntity` (the notebook's `prepare_data_splits`, whose implementation
lives in the external `tsfm_public` library).  For an entity with `n` rows,
the first `floor(train * n)` rows are the training split, the rows up to
`floor((1 - test) * n)` are the validation split, and the remainder is the
test split. -/
def partitionOne (cfg : SplitConfig) (rows : List SRow) :
    List SRow × List SRow × List SRow :=
  let i1 := ((cfg.train * (rows.length : ℚ)).floor).toNat
  let i2 := (((1 - cfg.test) * (rows.length : ℚ)).floor).toNat
  (rows.take i1, (rows.drop i1).take (i2 - i1), (rows.drop i1).drop (i2 - i1))

/-- The entity's computed partition violates the context-length requirement:
one of its three splits has fewer than `cl` rows. -/
def deficientEntity (table : List SRow) (cfg : SplitConfig) (cl : Nat) (e : Nat) : Prop :=
  (partitionOne cfg (entityRows table e)).1.length < cl ∨
  (partitionOne cfg (entityRows table e)).2.1.length < cl ∨
  (partitionOne cfg (entityRows table e)).2.2.length < cl

/-- Modelled from the spec: the per-entity loop of `splitByEntity`.  Each
entity's rows are partitioned chronologically; an entity whose partition
cannot satisfy the context length aborts the whole call with
`InsufficientHistoryError`, and otherwise the per-entity splits are
concatenated. -/
def splitEntities (table : List SRow) (cfg : SplitConfig) (cl : Nat) :
    List Nat → Except SplitError (List SRow × List SRow × List SRow)
  | [] => Except.ok ([], [], [])
  | e :: rest =>
    let parts := partitionOne cfg (entityRows table e)
    if parts.1.length < cl ∨ parts.2.1.length < cl ∨ parts.2.2.length < cl then
      Except.error (SplitError.insufficientHistory e)
    else
      match splitEntities table cfg cl rest with
      | Except.error err => Except.error err
      | Except.ok (trs, vas, tes) =>
          Except.ok (parts.1 ++ trs, parts.2.1 ++ vas, parts.2.2 ++ tes)

/-- Modelled from the spec: `splitByEntity` (the notebook's call
`prepare_data_splits(data, id_columns=…, split_config=…, context_length=…)`,
implemented in the external `tsfm_public` library).  Splits every entity of
the table chronologically by the configured fractions, with floor rounding,
failing with `InsufficientHistoryError` on any entity whose partition is
shorter than the context length. -/
def prepare_data_splits (table : List SRow) (cfg : SplitConfig) (cl : Nat) :
    Except SplitError (List SRow × List SRow × List SRow) :=
  splitEntities table cfg cl (entityIds table)

/-- Batteries' executable `Rat.floor` agrees with Mathlib's `⌊⌋`. -/
theorem rat_floor_eq (q : ℚ) : q.floor = ⌊q⌋ := by
  rw [Rat.floor_def', ← Rat.floor_def]

/-- Masking a matrix with its own NaN mask filters out exactly the rows that
contain a NaN. -/
theorem applyMask_maskOf_self (m : Mat) :
    applyMask (maskOf m) m = m.filter (fun r => !rowHasNaN r) := by
  induction m with
  | nil => rfl
  | cons r t ih =>
    by_cases h : rowHasNaN r
    · simp [applyMask, maskOf, List.filter_cons, h] at ih ⊢
      exact ih
    · simp [applyMask, maskOf, List.filter_cons, h] at ih ⊢
      exact ih

/-- Masking any second matrix with the NaN mask of `a` keeps exactly the rows
paired with a NaN-free row of `a`: the second matrix's own values are never
consulted. -/
theorem applyMask_maskOf_zip (a p : Mat) :
    applyMask (maskOf a) p =
      ((a.zip p).filter (fun q => !rowHasNaN q.1)).map Prod.snd := by
  induction a generalizing p with
  | nil => rfl
  | cons r t ih =>
    cases p with
    | nil => rfl
    | cons rp tp =>
      by_cases h : rowHasNaN r
      · simpa [applyMask, maskOf, List.filter_cons, h] using ih tp
      · simpa [applyMask, maskOf, List.filter_cons, h] using ih tp

/-- The three chronological parts of a per-entity partition concatenate back
to the entity's rows. -/
theorem partitionOne_append (cfg : SplitConfig) (rows : List SRow) :
    (partitionOne cfg rows).1 ++
      ((partitionOne cfg rows).2.1 ++ (partitionOne cfg rows).2.2) = rows := by
  unfold partitionOne
  rw [List.take_append_drop, List.take_append_drop]

/-- Every part of a per-entity partition is a subset of the entity's rows. -/
theorem partitionOne_subset (cfg : SplitConfig) (rows : List SRow) :
    (partitionOne cfg rows).1 ⊆ rows ∧
    (partitionOne cfg rows).2.1 ⊆ rows ∧
    (partitionOne cfg rows).2.2 ⊆ rows := by
  unfold partitionOne
  refine ⟨List.take_subset _ _, ?_, ?_⟩
  · exact fun x hx => List.drop_subset _ _ (List.take_subset _ _ hx)
  · exact fun x hx => List.drop_subset _ _ (List.drop_subset _ _ hx)

/-- Every row selected for an entity carries that entity's identifier. -/
theorem mem_entityRows {table : List SRow} {e : Nat} {r : SRow}
    (h : r ∈ entityRows table e) : r.entityId = e := by
  have := List.of_mem_filter h
  simpa using this

/-- Filtering a list of rows that all carry identifier `e` by `e` keeps it. -/
theorem filter_id_eq_self {l : List SRow} {e : Nat}
    (h : ∀ r ∈ l, r.entityId = e) :
    l.filter (fun r => r.entityId == e) = l := by
  rw [List.filter_eq_self]
  intro r hr
  simpa using h r hr

/-- Filtering a list of rows that all carry identifier `e0 ≠ e` by `e`
empties it. -/
theorem filter_id_eq_nil {l : List SRow} {e e0 : Nat}
    (h : ∀ r ∈ l, r.entityId = e0) (hne : e ≠ e0) :
    l.filter (fun r => r.entityId == e) = [] := by
  induction l with
  | nil => rfl
  | cons r t ih =>
    have hr : r.entityId = e0 := h r (List.mem_cons_self r t)
    have : (r.entityId == e) = false := by
      simp [hr]
      exact fun he => hne he.symm
    rw [List.filter_cons, this]
    simp only [Bool.false_eq_true, if_false]
    exact ih fun x hx => h x (List.mem_cons_of_mem r hx)

/-- An identifier absent from `entityIds` has no rows in the table. -/
theorem entityRows_eq_nil_of_not_mem {table : List SRow} {e : Nat}
    (h : e ∉ entityIds table) : entityRows table e = [] := by
  rw [entityRows, List.filter_eq_nil_iff]
  intro r hr
  simp only [beq_iff_eq]
  intro he
  exact h (List.mem_dedup.mpr (List.mem_map.mpr ⟨r, hr, he⟩))

/-- The per-entity loop, on a duplicate-free list of identifiers, distributes:
filtering any of the three outputs by an identifier recovers exactly that
entity's own partition part (or nothing, for identifiers not processed). -/
theorem splitEntities_filter_eq (table : List SRow) (cfg : SplitConfig) (cl : Nat) :
    ∀ es : List Nat, es.Nodup → ∀ tr va te,
      splitEntities table cfg cl es = Except.ok (tr, va, te) → ∀ e : Nat,
      tr.filter (fun r => r.entityId == e) =
        (if e ∈ es then (partitionOne cfg (entityRows table e)).1 else []) ∧
      va.filter (fun r => r.entityId == e) =
        (if e ∈ es then (partitionOne cfg (entityRows table e)).2.1 else []) ∧
      te.filter (fun r => r.entityId == e) =
        (if e ∈ es then (partitionOne cfg (entityRows table e)).2.2 else []) := by
  intro es
  induction es with
  | nil =>
    intro _ tr va te hok e
    simp only [splitEntities, Except.ok.injEq, Prod.mk.injEq] at hok
    obtain ⟨h1, h2, h3⟩ := hok
    subst h1; subst h2; subst h3
    simp
  | cons e0 rest ih =>
    intro hnd tr va te hok e
    have hnd0 : e0 ∉ rest := (List.nodup_cons.mp hnd).1
    have hndr : rest.Nodup := (List.nodup_cons.mp hnd).2
    simp only [splitEntities] at hok
    by_cases hdef :
        (partitionOne cfg (entityRows table e0)).1.length < cl ∨
        (partitionOne cfg (entityRows table e0)).2.1.length < cl ∨
        (partitionOne cfg (entityRows table e0)).2.2.length < cl
    · rw [if_pos hdef] at hok
      exact absurd hok (by simp)
    · rw [if_neg hdef] at hok
      cases hrec : splitEntities table cfg cl rest with
      | error err => rw [hrec] at hok; exact absurd hok (by simp)
      | ok triple =>
        obtain ⟨trs, vas, tes⟩ := triple
        rw [hrec] at hok
        simp only [Except.ok.injEq, Prod.mk.injEq] at hok
        obtain ⟨h1, h2, h3⟩ := hok
        subst h1; subst h2; subst h3
        obtain ⟨ih1, ih2, ih3⟩ := ih hndr trs vas tes hrec e
        have hpure : ∀ r ∈ entityRows table e0, r.entityId = e0 :=
          fun r hr => mem_entityRows hr
        obtain ⟨hs1, hs2, hs3⟩ := partitionOne_subset cfg (entityRows table e0)
        by_cases he : e = e0
        · subst he
          have hnotr : e ∉ rest := hnd0
          rw [List.filter_append, List.filter_append, List.filter_append,
            ih1, ih2, ih3, if_neg hnotr, if_neg hnotr, if_neg hnotr]
          rw [filter_id_eq_self (fun r hr => hpure r (hs1 hr)),
            filter_id_eq_self (fun r hr => hpure r (hs2 hr)),
            filter_id_eq_self (fun r hr => hpure r (hs3 hr))]
          simp [List.mem_cons]
        · have hmem : (e ∈ e0 :: rest) = (e ∈ rest) := by
            simp [List.mem_cons, he]
          rw [List.filter_append, List.filter_append, List.filter_append,
            ih1, ih2, ih3,
            filter_id_eq_nil (fun r hr => hpure r (hs1 hr)) he,
            filter_id_eq_nil (fun r hr => hpure r (hs2 hr)) he,
            filter_id_eq_nil (fun r hr => hpure r (hs3 hr)) he]
          simp [hmem]

/-- When some listed entity is deficient, the per-entity loop aborts with
`InsufficientHistoryError` naming a deficient entity. -/
theorem splitEntities_error_of_deficient (table : List SRow) (cfg : SplitConfig) (cl : Nat) :
    ∀ es : List Nat, (∃ e ∈ es, deficientEntity table cfg cl e) →
    ∃ e1, splitEntities table cfg cl es = Except.error (SplitError.insufficientHistory e1) ∧
      deficientEntity table cfg cl e1 := by
  intro es
  induction es with
  | nil => intro h; simp at h
  | cons e0 rest ih =>
    intro h
    by_cases hd : deficientEntity table cfg cl e0
    · refine ⟨e0, ?_, hd⟩
      unfold deficientEntity at hd
      simp only [splitEntities]
      rw [if_pos hd]
    · obtain ⟨e, he, hde⟩ := h
      have her : e ∈ rest := by
        rcases List.mem_cons.mp he with h0 | h0
        · exact absurd (h0 ▸ hde) hd
        · exact h0
      obtain ⟨e1, herr, hd1⟩ := ih ⟨e, her, hde⟩
      refine ⟨e1, ?_, hd1⟩
      unfold deficientEntity at hd
      simp only [splitEntities]
      rw [if_neg hd, herr]

/-- Claim C2: on actual=[[1,2,3],[4,5,6]] and predicted=[[1,2],[4,6]],
`custom_metric` truncates actual to predicted's 2 columns (never padding
predictions), the per-cell absolute errors are [[0,0],[0,1]], and the report
has mean_squared_error = 0.25 and mean_absolute_error = 0.25. -/
theorem C2_theorem :
    reconcile [[some 1, some 2, some 3], [some 4, some 5, some 6]]
        [[some 1, some 2], [some 4, some 6]]
      = [[some 1, some 2], [some 4, some 5]] ∧
    (matSub [[some 1, some 2], [some 4, some 5]] [[some 1, some 2], [some 4, some 6]]).map
        (fun r => r.map absVal)
      = [[some 0, some 0], [some 0, some 1]] ∧
    custom_metric [[some 1, some 2, some 3], [some 4, some 5, some 6]]
        [[some 1, some 2], [some 4, some 6]]
      = Except.ok ⟨some (1/4), some (1/4)⟩ := by
  refine ⟨?_, ?_, ?_⟩
  · simp [reconcile, truncRows, ncols]
  · simp [matSub, rowSub, subVal, absVal]
    norm_num
  · simp [custom_metric, reconcile, truncRows, ncols, bcastCompat, maskOf, rowHasNaN,
      isNaNVal, applyMask, matSub, rowSub, subVal, sqVal, absVal, npMean]
    norm_num

/-- Claim C3, counterexample: with actual=[[1]] and predicted=[[1,2]] —
equal row counts and predicted strictly wider — `custom_metric` does not
fail at all: numpy broadcasts the single actual column across predicted and
returns a metric report (mse = mae = 1/2). -/
theorem C3_counterexample :
    ([[some 1]] : Mat).length = ([[some 1, some 2]] : Mat).length ∧
    ncols [[some 1]] < ncols [[some 1, some 2]] ∧
    custom_metric [[some 1]] [[some 1, some 2]]
      = Except.ok ⟨some (1/2), some (1/2)⟩ := by
  refine ⟨rfl, by decide, ?_⟩
  simp [custom_metric, reconcile, truncRows, ncols, bcastCompat, maskOf, rowHasNaN,
    isNaNVal, applyMask, matSub, rowSub, subVal, sqVal, absVal, npMean]
  norm_num

/-- Claim C3, amended: for equal-row-count rectangular matrices where
predicted has strictly more columns than actual AND actual has at least two
columns, `custom_metric` fails — with numpy's broadcasting `ValueError`, not
a dedicated ShapeMismatchError; a single-column actual is instead silently
broadcast (see the counterexample). -/
theorem C3_theorem (a p : Mat) (_ha : IsRect a) (_hp : IsRect p)
    (hrows : a.length = p.length) (h2 : 2 ≤ ncols a) (hlt : ncols a < ncols p) :
    custom_metric a p = Except.error NumpyError.broadcastError := by
  have hrec : reconcile a p = a := by
    unfold reconcile
    rw [if_neg]
    omega
  have hc : bcastCompat (ncols a) (ncols p) = false := by
    simp only [bcastCompat, Bool.or_eq_false_iff, beq_eq_false_iff_ne]
    omega
  simp [custom_metric, hrec, hrows, hc]

/-- Witness for C3: a concrete 2-column actual against a 3-column predicted
hits the broadcasting error. -/
theorem C3_witness :
    custom_metric [[some 1, some 2], [some 3, some 4]]
        [[some 1, some 2, some 3], [some 4, some 5, some 6]]
      = Except.error NumpyError.broadcastError :=
  C3_theorem _ _ (by decide) (by decide) rfl (by decide) (by decide)

/-- Claim C4, counterexample: with actual=[[NaN]] and predicted=[[1]] the
mask removes every row, yet `custom_metric` does not fail: it silently
returns a report whose metrics are NaN. -/
theorem C4_counterexample :
    (∀ r ∈ reconcile [[none]] [[some 1]], rowHasNaN r = true) ∧
    custom_metric [[none]] [[some 1]] = Except.ok ⟨none, none⟩ := by
  refine ⟨by decide, ?_⟩
  simp [custom_metric, reconcile, truncRows, ncols, bcastCompat, maskOf, rowHasNaN,
    isNaNVal, applyMask, matSub, rowSub, subVal, sqVal, absVal, npMean]

/-- Claim C4, amended: whenever the missing-value mask removes all rows
(every reconciled actual row contains a NaN) on equal-row-count,
broadcast-compatible inputs, `custom_metric` silently returns a report whose
mean_squared_error and mean_absolute_error are NaN — no EmptyMaskError is
raised. -/
theorem C4_theorem (a p : Mat) (hrows : a.length = p.length)
    (hbc : bcastCompat (ncols (reconcile a p)) (ncols p) = true)
    (hnan : ∀ r ∈ reconcile a p, rowHasNaN r = true) :
    custom_metric a p = Except.ok ⟨none, none⟩ := by
  have h1 : applyMask (maskOf (reconcile a p)) (reconcile a p) = [] := by
    rw [applyMask_maskOf_self, List.filter_eq_nil_iff]
    intro r hr
    simp [hnan r hr]
  have h2 : applyMask (maskOf (reconcile a p)) p = [] := by
    rw [applyMask_maskOf_zip]
    have : ((reconcile a p).zip p).filter (fun q => !rowHasNaN q.1) = [] := by
      rw [List.filter_eq_nil_iff]
      intro x hx
      obtain ⟨x1, x2⟩ := x
      have hx1 : x1 ∈ reconcile a p := (List.of_mem_zip hx).1
      simp [hnan x1 hx1]
    rw [this]
    rfl
  simp [custom_metric, hrows, hbc, h1, h2, matSub, npMean]

/-- Witness for C4: a concrete pair where both actual rows contain a NaN. -/
theorem C4_witness :
    custom_metric [[none, some 1], [some 2, none]] [[some 1, some 1], [some 2, some 2]]
      = Except.ok ⟨none, none⟩ :=
  C4_theorem _ _ rfl (by decide) (by decide)

/-- Claim C6: after length reconciliation, the rows dropped by the mask from
both matrices are exactly those whose ACTUAL row contains a NaN: the actual
matrix keeps its NaN-free rows, and the predicted matrix keeps exactly the
rows paired with a NaN-free actual row — predicted values never trigger
masking (the filter predicate only inspects the actual component).  These are
precisely the two `applyMask (maskOf …)` applications inside
`custom_metric`. -/
theorem C6_theorem (a p : Mat) :
    applyMask (maskOf (reconcile a p)) (reconcile a p)
      = (reconcile a p).filter (fun r => !rowHasNaN r) ∧
    applyMask (maskOf (reconcile a p)) p
      = (((reconcile a p).zip p).filter (fun q => !rowHasNaN q.1)).map Prod.snd :=
  ⟨applyMask_maskOf_self _, applyMask_maskOf_zip _ _⟩

/-- Claim C10: a NaN in predicted, in a row whose actual values are all
present, does not fail and is not masked out: `custom_metric` returns a
report with mean_squared_error, root_mean_squared_error and
mean_absolute_error all NaN, because only actual is inspected for missing
values. -/
theorem C10_theorem :
    custom_metric [[some 1, some 2], [some 3, some 4]] [[some 1, none], [some 3, some 4]]
      = Except.ok ⟨none, none⟩ ∧
    reportRmseNaN ⟨none, none⟩ = true := by
  refine ⟨?_, rfl⟩
  simp [custom_metric, reconcile, truncRows, ncols, bcastCompat, maskOf, rowHasNaN,
    isNaNVal, applyMask, matSub, rowSub, subVal, sqVal, absVal, npMean]

/-- Claim C1, counterexample: the few-shot selection has no seed parameter —
it reads the ambient global numpy permutation.  Two calls with identical
inputs (datasetSize = 2, fraction = 1) but different ambient generator
states (both legitimate permutations of `range 2`) return different index
sets, so the selection is not a function of the inputs alone. -/
theorem C1_counterexample :
    List.Perm [0, 1] (List.range 2) ∧ List.Perm [1, 0] (List.range 2) ∧
    fewshotSample [0, 1] 1 2 ≠ fewshotSample [1, 0] 1 2 := by
  refine ⟨by decide, by decide, ?_⟩
  simp only [fewshotSample, pyInt]
  norm_num [Rat.floor_def']
  decide

/-- Claim C1, amended: the few-shot selection takes no seed and depends on
the ambient global numpy state; it is deterministic given that state — the
result is fully determined by the first `int(fraction * datasetSize)`
entries of the ambient permutation together with the inputs, so two calls
whose ambient permutations agree on that prefix select identically. -/
theorem C1_theorem (p1 p2 : List Nat) (f : ℚ) (n : Nat)
    (h : p1.take (pyInt (f * (n : ℚ))).toNat = p2.take (pyInt (f * (n : ℚ))).toNat) :
    fewshotSample p1 f n = fewshotSample p2 f n := h

/-- Witness for C1: two ambient permutations sharing their first two entries
yield the same selection at fraction 1/2 of 4 examples. -/
theorem C1_witness :
    fewshotSample [3, 1, 0, 2] (1/2) 4 = fewshotSample [3, 1, 2, 0] (1/2) 4 :=
  C1_theorem _ _ _ _ (by
    have h : pyInt ((1/2 : ℚ) * ((4 : Nat) : ℚ)) = 2 := by
      unfold pyInt
      rw [if_pos (by norm_num), rat_floor_eq,
        show (1/2 : ℚ) * ((4 : Nat) : ℚ) = ((2 : ℤ) : ℚ) by norm_num,
        Int.floor_intCast]
    rw [h]
    decide)

/-- Claim C5, counterexample: at datasetSize = 3, fraction = 1/10 the
selection count `int(0.1 * 3)` is zero and the code silently returns the
empty selection — no EmptySampleError exists in the source. -/
theorem C5_counterexample :
    fewshotSample [0, 1, 2] (1/10) 3 = [] ∧ List.Perm [0, 1, 2] (List.range 3) := by
  refine ⟨?_, by decide⟩
  simp only [fewshotSample, pyInt]
  norm_num [Rat.floor_def']

/-- Claim C5, amended: whenever `floor(fraction * datasetSize) = 0` (for a
nonnegative fraction), the few-shot selection silently evaluates to the
empty index list instead of raising an error. -/
theorem C5_theorem (perm : List Nat) (f : ℚ) (n : Nat) (hf : 0 ≤ f)
    (h0 : ⌊f * (n : ℚ)⌋ = 0) : fewshotSample perm f n = [] := by
  have hnn : (0 : ℚ) ≤ f * (n : ℚ) := mul_nonneg hf (Nat.cast_nonneg n)
  unfold fewshotSample pyInt
  rw [if_pos hnn, rat_floor_eq, h0]
  rfl

/-- Witness for C5: fraction 1/10 of 5 examples floors to zero and selects
nothing, whatever the ambient permutation. -/
theorem C5_witness : fewshotSample [2, 0, 4, 1, 3] (1/10) 5 = [] :=
  C5_theorem _ _ _ (by norm_num) (by
    rw [show (1/10 : ℚ) * ((5 : Nat) : ℚ) = 1/2 by norm_num,
      Int.floor_eq_zero_iff]
    constructor <;> norm_num)

/-- Claim C7: when the ambient generator returns a permutation of
`range datasetSize` and the fraction lies in (0, 1], the few-shot selection
has exactly `floor(fraction * datasetSize)` indices, all distinct and all
below datasetSize (sampling without replacement). -/
theorem C7_theorem (perm : List Nat) (f : ℚ) (n : Nat)
    (hperm : List.Perm perm (List.range n)) (hf0 : 0 < f) (hf1 : f ≤ 1) :
    (fewshotSample perm f n).length = (⌊f * (n : ℚ)⌋).toNat ∧
    (fewshotSample perm f n).Nodup ∧
    ∀ i ∈ fewshotSample perm f n, i < n := by
  have hnn : (0 : ℚ) ≤ f * (n : ℚ) := mul_nonneg hf0.le (Nat.cast_nonneg n)
  have hpy : pyInt (f * (n : ℚ)) = ⌊f * (n : ℚ)⌋ := by
    unfold pyInt
    rw [if_pos hnn, rat_floor_eq]
  have hlen : perm.length = n := by
    rw [hperm.length_eq, List.length_range]
  have hle : ⌊f * (n : ℚ)⌋ ≤ (n : ℤ) := by
    have hfn : f * (n : ℚ) ≤ (n : ℚ) := mul_le_of_le_one_left (Nat.cast_nonneg n) hf1
    have hmono := Int.floor_le_floor hfn
    rwa [Int.floor_natCast] at hmono
  have htn : (⌊f * (n : ℚ)⌋).toNat ≤ n := Int.toNat_le.mpr hle
  have hnd : perm.Nodup := hperm.nodup_iff.mpr (List.nodup_range n)
  unfold fewshotSample
  rw [hpy]
  refine ⟨?_, ?_, ?_⟩
  · rw [List.length_take, hlen]
    exact min_eq_left htn
  · exact List.Nodup.sublist (List.take_sublist _ _) hnd
  · intro i hi
    have hip : i ∈ perm := List.take_subset _ _ hi
    exact List.mem_range.mp (hperm.mem_iff.mp hip)

/-- Witness for C7: the identity ambient permutation of 4 examples at
fraction 1/2. -/
theorem C7_witness :
    (fewshotSample (List.range 4) (1/2) 4).length = (⌊(1/2 : ℚ) * ((4 : Nat) : ℚ)⌋).toNat ∧
    (fewshotSample (List.range 4) (1/2) 4).Nodup ∧
    ∀ i ∈ fewshotSample (List.range 4) (1/2) 4, i < 4 :=
  C7_theorem (List.range 4) (1/2) 4 (List.Perm.refl _) (by norm_num) (by norm_num)

/-- Claim C8 (spec-modelled): for every entity, concatenating its train,
valid and test rows — in output order — reproduces exactly that entity's
rows of the source table, without reordering or duplication. -/
theorem C8_theorem (table : List SRow) (cfg : SplitConfig) (cl : Nat)
    (tr va te : List SRow)
    (hok : prepare_data_splits table cfg cl = Except.ok (tr, va, te)) (e : Nat) :
    tr.filter (fun r => r.entityId == e) ++
      (va.filter (fun r => r.entityId == e) ++ te.filter (fun r => r.entityId == e))
      = entityRows table e := by
  obtain ⟨h1, h2, h3⟩ :=
    splitEntities_filter_eq table cfg cl (entityIds table)
      (List.nodup_dedup _) tr va te hok e
  by_cases he : e ∈ entityIds table
  · rw [h1, h2, h3, if_pos he, if_pos he, if_pos he]
    exact partitionOne_append cfg (entityRows table e)
  · rw [h1, h2, h3, if_neg he, if_neg he, if_neg he,
      entityRows_eq_nil_of_not_mem he]
    rfl

/-- Witness for C8: a two-entity table of four rows each, split with
fractions {train: 1/2, test: 1/4} and context length 1; entity 0's pieces
reassemble its original rows. -/
theorem C8_witness :
    (([⟨0,0⟩, ⟨0,1⟩, ⟨1,0⟩, ⟨1,1⟩] : List SRow).filter (fun r => r.entityId == 0)) ++
      ((([⟨0,2⟩, ⟨1,2⟩] : List SRow).filter (fun r => r.entityId == 0)) ++
        (([⟨0,3⟩, ⟨1,3⟩] : List SRow).filter (fun r => r.entityId == 0)))
      = entityRows [⟨0,0⟩, ⟨0,1⟩, ⟨0,2⟩, ⟨0,3⟩, ⟨1,0⟩, ⟨1,1⟩, ⟨1,2⟩, ⟨1,3⟩] 0 :=
  C8_theorem [⟨0,0⟩, ⟨0,1⟩, ⟨0,2⟩, ⟨0,3⟩, ⟨1,0⟩, ⟨1,1⟩, ⟨1,2⟩, ⟨1,3⟩] ⟨1/2, 1/4⟩ 1
    [⟨0,0⟩, ⟨0,1⟩, ⟨1,0⟩, ⟨1,1⟩] [⟨0,2⟩, ⟨1,2⟩] [⟨0,3⟩, ⟨1,3⟩]
    (by
      simp [prepare_data_splits, entityIds, splitEntities, entityRows, partitionOne]
      norm_num [Rat.floor_def']
      rfl)
    0

/-- Claim C9 (spec-modelled): whenever some entity of the table has a
partition shorter than the context length, the split fails with
`InsufficientHistoryError` reporting a deficient entity rather than
silently skipping it. -/
theorem C9_theorem (table : List SRow) (cfg : SplitConfig) (cl : Nat)
    (h : ∃ e ∈ entityIds table, deficientEntity table cfg cl e) :
    ∃ e1, prepare_data_splits table cfg cl
        = Except.error (SplitError.insufficientHistory e1) ∧
      deficientEntity table cfg cl e1 :=
  splitEntities_error_of_deficient table cfg cl (entityIds table) h

/-- Witness for C9: a single entity with 3 rows cannot satisfy context
length 90 (its splits have 1, 1 and 1 rows), so the split call reports it. -/
theorem C9_witness :
    ∃ e1, prepare_data_splits [⟨0,0⟩, ⟨0,1⟩, ⟨0,2⟩] ⟨1/2, 1/4⟩ 90
        = Except.error (SplitError.insufficientHistory e1) ∧
      deficientEntity [⟨0,0⟩, ⟨0,1⟩, ⟨0,2⟩] ⟨1/2, 1/4⟩ 90 e1 :=
  C9_theorem _ _ _ ⟨0, by simp [entityIds], by
    simp [deficientEntity, entityRows, partitionOne]⟩
